import Mathlib

/-!
Shallow embedding of the voting pipeline core.

The Worker Consumer is `src/worker/Program.cs`. Its polling loop (`Main`,
lines 67-118), connection opener (`OpenDbConnection`, lines 127-161) and
store upsert (`UpdateVote`, lines 183-202) are embedded below. The store
table `votes (id VARCHAR UNIQUE, vote VARCHAR)` is modelled as a list of
rows; SQL statements are modelled by their effect on that list. Time is
modelled in minutes (the IAM token refresh interval is 10 minutes).
Console logging and the Redis client object are not modelled: Redis is
represented as the FIFO list of queue entries plus a reconnect step that
always succeeds (OpenRedisConnection block-retries until it succeeds).

The Aggregator/Broadcaster is `src/result/server.js`: its polling query
(`getVotes`, lines 97-108) and snapshot builder (`collectVotesFromResult`,
lines 110-118) are embedded below. The Submission Intake is the Flask
route `hello` carried in the same file at lines 313-346: its POST path
reads the vote value from the form and pushes the serialized Submission
onto the Redis list without validating the choice.
-/

namespace VotingCore

/-- A decoded Submission: the queue wire format is a JSON object with
fields `voter_id` and `vote` (Program.cs line 61 anonymous shape). -/
structure Submission where
  voter_id : String
  vote : String

deriving instance DecidableEq, Repr for Submission

/-- One persisted Tally Row of the `votes` table:
`id VARCHAR(255) NOT NULL UNIQUE, vote VARCHAR(255) NOT NULL`
(Program.cs lines 154-157). -/
structure Row where
  id : String
  vote : String

deriving instance DecidableEq, Repr for Row

/-- The `votes` table as the list of its rows, in insertion order. -/
abbrev Table := List Row

/-- Whether the table already holds a row for this voter identity; this is
what makes `INSERT INTO votes (id, vote) VALUES (@id, @vote)` violate the
unique-key constraint on `id` (Program.cs line 188). -/
def hasVoter (rows : Table) (voterId : String) : Bool :=
  rows.any fun r => r.id == voterId

/-- Effect of the INSERT statement of `UpdateVote` (Program.cs lines
188-191): `none` models the unique-key `DbException`, otherwise the new
row is appended. -/
def insertVote (rows : Table) (voterId vote : String) : Option Table :=
  if hasVoter rows voterId then none
  else some (rows ++ [⟨voterId, vote⟩])

/-- Effect of the fallback `UPDATE votes SET vote = @vote WHERE id = @id`
(Program.cs line 195): every row whose id matches gets the new vote. -/
def updateVoteRow (rows : Table) (voterId vote : String) : Table :=
  rows.map fun r => if r.id == voterId then ⟨r.id, vote⟩ else r

/-- `UpdateVote` (Program.cs lines 183-202): attempt the insert; on the
unique-key `DbException` fall back to the update. -/
def UpdateVote (rows : Table) (voterId vote : String) : Table :=
  match insertVote rows voterId vote with
  | some inserted => inserted
  | none => updateVoteRow rows voterId vote

/-- The Tally Row choice currently stored for a voter identity: first row
of the table whose unique `id` matches (a SELECT by primary key). -/
def tallyFor : Table → String → Option String
  | [], _ => none
  | r :: rest, v => if r.id == v then some r.vote else tallyFor rest v

/-- A record popped from the Durable Queue. The C# worker pops an opaque
string and decodes it with `JsonConvert.DeserializeAnonymousType`
(Program.cs line 82); the embedding splits the string space into the
entries that deserializer accepts (carrying the decoded Submission) and
those on which it throws, keeping the raw text of the latter. -/
inductive QueueEntry where
  | wellFormed (s : Submission)
  | malformed (raw : String)

deriving instance DecidableEq, Repr for QueueEntry

/-- Result of `JsonConvert.DeserializeAnonymousType json definition`
(Program.cs line 82): `none` models the deserializer throwing. -/
def decode : QueueEntry → Option Submission
  | .wellFormed s => some s
  | .malformed _ => none

/-- `tokenRefreshInterval = TimeSpan.FromMinutes(10)` (Program.cs line
65), in the minutes that model time here. -/
def tokenRefreshIntervalMin : Nat := 10

/-- State of the worker between two iterations of the `while (true)` loop
of `Main` (Program.cs lines 67-118).

* `queue` - the Redis list `votes`, head = next `ListLeftPop` result.
* `rows` - the `votes` table of the Postgres store.
* `dbOpen` - whether `pgsql.State` is `Open` (the connection the loop
  writes through).
* `keepAliveOpen` - whether the connection that `keepAliveCommand` was
  created on is open; the command is created once at startup (lines
  58-59) and re-created only in the IAM refresh block (lines 98-99), so
  after the plain reconnect of line 107 it still points at the old,
  closed connection.
* `useIamAuth`, `nowMin`, `lastTokenRefresh`, `mintCount` - the IAM
  credential state: config flag (line 26), the current clock and
  `lastTokenRefresh` in minutes (lines 64, 86, 100), and how many auth
  tokens have been minted so far (`GenerateAuthToken` calls). -/
structure WorkerState where
  queue : List QueueEntry
  rows : Table
  dbOpen : Bool
  keepAliveOpen : Bool
  useIamAuth : Bool
  nowMin : Nat
  lastTokenRefresh : Nat
  mintCount : Nat

deriving instance DecidableEq, Repr for WorkerState

/-- Outcome of one loop iteration: either the loop continues with a new
state, or an exception escaped the loop to the top-level handler of
`Main` (Program.cs lines 120-124), which logs it and returns the exit
code 1. -/
inductive StepResult where
  | running (s : WorkerState)
  | exited (code : Nat)

deriving instance DecidableEq, Repr for StepResult

/-- One iteration of the polling loop of `Main` (Program.cs lines 67-118):

1. `Thread.Sleep(100)` and the Redis reconnect (lines 69-77): no effect on
   this state (`OpenRedisConnection` block-retries until it succeeds).
2. `ListLeftPop` (line 79). On `null` (empty queue) the keep-alive
   `SELECT 1` runs (line 116); `ExecuteNonQuery` on a command whose
   connection is not open throws, and no handler inside the loop catches
   it, so the loop ends with exit code 1.
3. On a record, decode (line 82); a deserializer throw likewise escapes
   the loop (exit code 1).
4. The IAM-refresh check (lines 86-101) runs only on this popped-record
   path: when `useIamAuth` is set and more than the 10-minute interval
   elapsed since the last mint, the store connection is closed, a new
   token is minted, the connection reopened and `keepAliveCommand`
   re-created on it.
5. Lines 104-112: if the store connection is not open, reopen it
   (`OpenDbConnection` block-retries until open, so it always comes back
   open) - and the popped vote is NOT written; only when the connection
   was already open does `UpdateVote` run. -/
def workerStep (s : WorkerState) : StepResult :=
  match s.queue with
  | [] =>
      if s.keepAliveOpen then .running s else .exited 1
  | e :: rest =>
      match decode e with
      | none => .exited 1
      | some v =>
          let s1 :=
            if s.useIamAuth = true ∧ tokenRefreshIntervalMin < s.nowMin - s.lastTokenRefresh then
              { s with queue := rest, dbOpen := true, keepAliveOpen := true,
                       lastTokenRefresh := s.nowMin, mintCount := s.mintCount + 1 }
            else
              { s with queue := rest }
          if s1.dbOpen then
            .running { s1 with rows := UpdateVote s1.rows v.voter_id v.vote }
          else
            .running { s1 with dbOpen := true }

/-- Run `n` iterations of the polling loop, stopping early only if an
iteration escapes to the top-level handler. -/
def runLoop : Nat → WorkerState → StepResult
  | 0, s => .running s
  | n + 1, s =>
      match workerStep s with
      | .running t => runLoop n t
      | .exited c => .exited c

/-- Events of the worker's environment between loop iterations: the
store connection dropping silently, the Submission Intake pushing an
entry onto the tail of the queue, and the clock advancing. -/
inductive EnvEvent where
  | dropDb
  | push (e : QueueEntry)
  | advance (minutes : Nat)

/-- Effect of an environment event on the worker's state. -/
def envApply (s : WorkerState) : EnvEvent → WorkerState
  | .dropDb => { s with dbOpen := false, keepAliveOpen := false }
  | .push e => { s with queue := s.queue ++ [e] }
  | .advance d => { s with nowMin := s.nowMin + d }

/-- Reachability: interleavings of environment events and loop iterations
that keep the worker running. -/
inductive Reachable : WorkerState → WorkerState → Prop where
  | refl (s : WorkerState) : Reachable s s
  | env (s t : WorkerState) (ev : EnvEvent) :
      Reachable s t → Reachable s (envApply t ev)
  | step (s t u : WorkerState) :
      Reachable s t → workerStep t = .running u → Reachable s u

/-- Worker state right after startup with password auth (Program.cs lines
46-59): both connections open, clock at 0, no IAM tokens minted. -/
def initWorker : WorkerState :=
  { queue := [], rows := [], dbOpen := true, keepAliveOpen := true,
    useIamAuth := false, nowMin := 0, lastTokenRefresh := 0, mintCount := 0 }

/-- Worker state right after startup with IAM auth (Program.cs lines
34-45, 64): one token was minted for the initial connection string and
`lastTokenRefresh` was set at the same moment. -/
def initWorkerIam : WorkerState :=
  { queue := [], rows := [], dbOpen := true, keepAliveOpen := true,
    useIamAuth := true, nowMin := 0, lastTokenRefresh := 0, mintCount := 1 }

/-- Concrete worker state whose next pop yields a record the deserializer
throws on. -/
def stMalformed : WorkerState :=
  { queue := [.malformed "not json"], rows := [], dbOpen := true, keepAliveOpen := true,
    useIamAuth := false, nowMin := 0, lastTokenRefresh := 0, mintCount := 0 }

/-- Concrete worker state whose next pop yields a well-formed Submission
while the store connection has dropped. -/
def stClosedConn : WorkerState :=
  { queue := [.wellFormed ⟨"abc", "a"⟩], rows := [], dbOpen := false, keepAliveOpen := false,
    useIamAuth := false, nowMin := 0, lastTokenRefresh := 0, mintCount := 0 }

/-- The state one iteration after `stClosedConn`: the reopen succeeded,
the queue entry is gone, and nothing was written. -/
def stReopened : WorkerState :=
  { stClosedConn with queue := [], dbOpen := true }

/-- The IAM worker state after sixty minutes of zero queue traffic. -/
def idleIamState : WorkerState :=
  envApply initWorkerIam (.advance 60)

/-- Concrete IAM worker state with a stale token (eleven minutes since
the last mint) and one well-formed record waiting in the queue. -/
def staleIamPopState : WorkerState :=
  { queue := [.wellFormed ⟨"abc", "a"⟩], rows := [], dbOpen := true, keepAliveOpen := true,
    useIamAuth := true, nowMin := 11, lastTokenRefresh := 0, mintCount := 1 }

/-- The worker about to drain a queue of well-formed Submissions with the
store connection open and password auth (so every iteration writes). -/
def drainState (subs : List Submission) (rows : Table) : WorkerState :=
  { queue := subs.map .wellFormed, rows := rows, dbOpen := true, keepAliveOpen := true,
    useIamAuth := false, nowMin := 0, lastTokenRefresh := 0, mintCount := 0 }

/-- The voter-identity column of the table, in row order. -/
def voterIds (rows : Table) : List String :=
  rows.map Row.id

/-- Effect on the rows of the `CREATE TABLE IF NOT EXISTS votes ...` that
`OpenDbConnection` runs before returning ready (Program.cs lines
153-158): it creates the schema when absent and never touches rows. -/
def ensureVotesTable (rows : Table) : Table :=
  rows

/-- The resolved voter identity of `hello` (server.js lines 317-319):
the `voter_id` cookie when present, otherwise the freshly minted random
id (the mint's randomness is a parameter here). -/
def resolveVoterId : Option String → String → String
  | some c, _ => c
  | none, minted => minted

/-- The POST path of the intake route `hello` (server.js lines 313-346,
the `vote/app.py` Flask route): with error simulation on it raises (the
request fails, nothing enqueued); otherwise it reads the `vote` form
value - performing NO validation of the choice - serializes
`voter_id`/`vote` and appends it to the tail of the Redis list `votes`
(`rpush`), returning the new queue and the cookie value it sets. -/
def helloPost (errorSimEnabled : Bool) (cookieVoterId : Option String)
    (mintedId : String) (formVote : String) (queue : List QueueEntry) :
    Except String (List QueueEntry × String) :=
  let voterId := resolveVoterId cookieVoterId mintedId
  if errorSimEnabled then
    .error "Simulated Error: Canary rollback testing"
  else
    .ok (queue ++ [.wellFormed ⟨voterId, formVote⟩], voterId)

/-- `COUNT(id)` of the `GROUP BY vote` query of `getVotes` (server.js
line 98): the number of table rows holding the given choice. -/
def choiceCount (rows : Table) (choice : String) : Nat :=
  (rows.filter fun r => r.vote == choice).length

/-- The grouping keys of the `GROUP BY vote` query of `getVotes`
(server.js line 98): the distinct vote values present in the table (SQL
fixes no row order; one concrete order is used here). -/
def distinctChoices : Table → List String
  | [] => []
  | r :: rest =>
      let tail := distinctChoices rest
      if tail.contains r.vote then tail else r.vote :: tail

/-- The result set of
`SELECT vote, COUNT(id) AS count FROM votes GROUP BY vote`
(`getVotes`, server.js line 98): one `(vote, count)` pair per distinct
vote value. -/
def groupByVote (rows : Table) : List (String × Nat) :=
  (distinctChoices rows).map fun c => (c, choiceCount rows c)

/-- JavaScript object assignment `votes[key] = value` on an object
modelled as an association list: an existing key is overwritten in
place, a new key is appended. -/
def setKey (m : List (String × Nat)) (k : String) (v : Nat) : List (String × Nat) :=
  if m.any (fun p => p.1 == k) then
    m.map fun p => if p.1 == k then (p.1, v) else p
  else
    m ++ [(k, v)]

/-- `collectVotesFromResult` (server.js lines 110-118): start from the
fixed object `votes = (a: 0, b: 0)` and write each query row's count
under its vote value. -/
def collectVotesFromResult (result : List (String × Nat)) : List (String × Nat) :=
  result.foldl (fun m row => setKey m row.1 row.2) [("a", 0), ("b", 0)]

/-- Outcome of the `client.query` callback in `getVotes` (server.js
lines 98-99): either the grouped result set or the error `err`. -/
inductive QueryOutcome where
  | ok (rows : Table)
  | failed (err : String)

/-- What one `getVotes` cycle emits (server.js lines 97-108): the
snapshot broadcast over `io.sockets.emit` (none on query failure), the
`console.error` line, and whether `setTimeout` schedules the next cycle
(it sits outside the if/else, so always). -/
structure AggCycleOutcome where
  broadcast : Option (List (String × Nat))
  logged : Option String
  schedulesNext : Bool

deriving instance DecidableEq, Repr for AggCycleOutcome

/-- One cycle of `getVotes` (server.js lines 97-108): on a query error,
log `Error performing query: err` and emit nothing; on success, emit
`collectVotesFromResult` of the grouped counts; in both cases
`setTimeout` re-arms the cycle at the fixed 1s interval. -/
def aggCycle : QueryOutcome → AggCycleOutcome
  | .ok rows =>
      { broadcast := some (collectVotesFromResult (groupByVote rows)),
        logged := none, schedulesNext := true }
  | .failed e =>
      { broadcast := none, logged := some ("Error performing query: " ++ e),
        schedulesNext := true }

/-- The `getVotes` polling chain (the `setTimeout` rescheduling at
server.js line 106) over a sequence of query outcomes: the broadcast
snapshots in order, and the number of cycles completed. -/
def aggRun : List QueryOutcome → List (List (String × Nat)) × Nat
  | [] => ([], 0)
  | q :: qs =>
      let rest := aggRun qs
      ((aggCycle q).broadcast.toList ++ rest.1, rest.2 + 1)

theorem UpdateVote_present (rows : Table) (v c : String)
    (h : hasVoter rows v = true) :
    UpdateVote rows v c = updateVoteRow rows v c := by
  simp [UpdateVote, insertVote, h]

theorem UpdateVote_absent (rows : Table) (v c : String)
    (h : hasVoter rows v = false) :
    UpdateVote rows v c = rows ++ [⟨v, c⟩] := by
  simp [UpdateVote, insertVote, h]

/-- The UPDATE statement never changes the `id` column of any row. -/
theorem updateVoteRow_map_id (rows : Table) (v c : String) :
    (updateVoteRow rows v c).map Row.id = rows.map Row.id := by
  unfold updateVoteRow
  rw [List.map_map]
  apply List.map_congr_left
  intro r _
  by_cases hr : r.id == v
  · simp [Function.comp, hr]
  · simp [Function.comp, hr]

theorem hasVoter_iff_mem_map_id (rows : Table) (v : String) :
    hasVoter rows v = true ↔ v ∈ rows.map Row.id := by
  unfold hasVoter
  rw [List.any_eq_true]
  constructor
  · rintro ⟨r, hr, hid⟩
    have hv : r.id = v := by simpa using hid
    exact hv ▸ List.mem_map_of_mem Row.id hr
  · intro hv
    rcases List.mem_map.mp hv with ⟨r, hr, hid⟩
    exact ⟨r, hr, by simp [hid]⟩

theorem hasVoter_updateVoteRow (rows : Table) (v w c : String) :
    hasVoter (updateVoteRow rows v c) w = hasVoter rows w := by
  by_cases h : hasVoter rows w = true
  · rw [h, hasVoter_iff_mem_map_id, updateVoteRow_map_id]
    exact (hasVoter_iff_mem_map_id rows w).mp h
  · simp only [Bool.not_eq_true] at h
    rw [h]
    rw [← Bool.not_eq_true, hasVoter_iff_mem_map_id, updateVoteRow_map_id]
    rw [← hasVoter_iff_mem_map_id, h]
    simp

theorem updateVoteRow_of_absent (rows : Table) (v c : String)
    (h : hasVoter rows v = false) :
    updateVoteRow rows v c = rows := by
  unfold hasVoter at h
  have habs : ∀ r ∈ rows, ¬(r.id == v) = true := List.any_eq_false.mp h
  unfold updateVoteRow
  calc rows.map (fun r => if r.id == v then (⟨r.id, c⟩ : Row) else r)
      = rows.map id := by
        apply List.map_congr_left
        intro r hr
        simp [habs r hr]
    _ = rows := List.map_id rows

theorem updateVoteRow_append (rows more : Table) (v c : String) :
    updateVoteRow (rows ++ more) v c = updateVoteRow rows v c ++ updateVoteRow more v c := by
  simp [updateVoteRow]

theorem updateVoteRow_idem (rows : Table) (v c : String) :
    updateVoteRow (updateVoteRow rows v c) v c = updateVoteRow rows v c := by
  unfold updateVoteRow
  rw [List.map_map]
  apply List.map_congr_left
  intro r _
  by_cases hr : r.id == v
  · simp [Function.comp, hr]
  · simp [Function.comp, hr]

theorem tallyFor_updateVoteRow_self (rows : Table) (v c : String)
    (h : hasVoter rows v = true) :
    tallyFor (updateVoteRow rows v c) v = some c := by
  induction rows with
  | nil => simp [hasVoter] at h
  | cons r rest ih =>
    by_cases hr : r.id == v
    · simp [updateVoteRow, tallyFor, hr]
    · simp only [hasVoter, List.any_cons, Bool.or_eq_true] at h
      rcases h with h | h
      · exact absurd h hr
      · simpa [updateVoteRow, tallyFor, hr] using ih h

theorem tallyFor_append_not_found (rows : Table) (more : Table) (v : String)
    (h : hasVoter rows v = false) :
    tallyFor (rows ++ more) v = tallyFor more v := by
  induction rows with
  | nil => simp
  | cons r rest ih =>
    simp only [hasVoter, List.any_cons, Bool.or_eq_false_iff] at h
    simpa [tallyFor, h.1] using ih h.2

/-- After `UpdateVote rows v c`, the tally stored for `v` is `c`. -/
theorem tallyFor_UpdateVote_self (rows : Table) (v c : String) :
    tallyFor (UpdateVote rows v c) v = some c := by
  by_cases h : hasVoter rows v = true
  · rw [UpdateVote_present rows v c h]
    exact tallyFor_updateVoteRow_self rows v c h
  · simp only [Bool.not_eq_true] at h
    rw [UpdateVote_absent rows v c h, tallyFor_append_not_found rows _ v h]
    simp [tallyFor]

/-- C2 - The store upsert is idempotent: applying `UpdateVote` a second
time with the same voter id and choice leaves the whole table (and so the
Tally Row for that voter) unchanged: the second insert fails on the
unique key and the update fallback writes the same choice back. -/
theorem UpdateVote_idempotent (rows : Table) (v c : String) :
    UpdateVote (UpdateVote rows v c) v c = UpdateVote rows v c := by
  by_cases h : hasVoter rows v = true
  · rw [UpdateVote_present rows v c h]
    rw [UpdateVote_present _ v c (by rw [hasVoter_updateVoteRow]; exact h)]
    exact updateVoteRow_idem rows v c
  · simp only [Bool.not_eq_true] at h
    rw [UpdateVote_absent rows v c h]
    have hafter : hasVoter (rows ++ [⟨v, c⟩]) v = true := by
      simp [hasVoter]
    rw [UpdateVote_present _ v c hafter]
    rw [updateVoteRow_append, updateVoteRow_of_absent rows v c h]
    simp [updateVoteRow]

theorem runLoop_succ_running (n : Nat) (s t : WorkerState)
    (h : workerStep s = .running t) :
    runLoop (n + 1) s = runLoop n t := by
  simp [runLoop, h]

theorem runLoop_fixpoint (n : Nat) (s : WorkerState)
    (h : workerStep s = .running s) :
    runLoop n s = .running s := by
  induction n with
  | zero => rfl
  | succ n ih => rw [runLoop_succ_running n s s h]; exact ih

/-- With the connection open, password auth and a well-formed head
record, one loop iteration pops it and applies the idempotent write. -/
theorem workerStep_drain (x : Submission) (rest : List Submission) (rows : Table) :
    workerStep (drainState (x :: rest) rows) =
      .running (drainState rest (UpdateVote rows x.voter_id x.vote)) := by
  simp [workerStep, drainState, decode]

/-- C1 - For every sequence of Submissions from a single voter identity,
drained in enqueue order by one Worker Consumer instance with the store
connection open at each write (`drainState`), the final Tally Row for
that voter identity holds the choice of the last Submission in the
sequence. -/
theorem worker_last_write_wins (subs : List Submission) (v : String)
    (last : Submission) (rows : Table)
    (hlast : subs.getLast? = some last)
    (hall : ∀ x ∈ subs, x.voter_id = v) :
    ∃ t, runLoop subs.length (drainState subs rows) = .running t ∧
      tallyFor t.rows v = some last.vote := by
  induction subs generalizing rows with
  | nil => simp at hlast
  | cons x rest ih =>
    rw [List.length_cons,
        runLoop_succ_running _ _ _ (workerStep_drain x rest rows)]
    cases rest with
    | nil =>
      have hx : x = last := by simpa using hlast
      subst hx
      refine ⟨_, rfl, ?_⟩
      have hv : x.voter_id = v := hall x (by simp)
      show tallyFor (UpdateVote rows x.voter_id x.vote) v = some x.vote
      rw [hv]
      exact tallyFor_UpdateVote_self rows v x.vote
    | cons y t2 =>
      have hlast2 : (y :: t2).getLast? = some last := by
        rw [← List.getLast?_cons_cons]
        exact hlast
      exact ih (UpdateVote rows x.voter_id x.vote) hlast2
        (fun z hz => hall z (List.mem_cons_of_mem x hz))

/-- C1 witness: two Submissions by voter "abc", first choice "a", then
choice "b"; the drained worker leaves the tally at "b". -/
theorem worker_last_write_wins_witness :
    ([⟨"abc", "a"⟩, ⟨"abc", "b"⟩] : List Submission).getLast? = some ⟨"abc", "b"⟩ ∧
    (∀ x ∈ ([⟨"abc", "a"⟩, ⟨"abc", "b"⟩] : List Submission), x.voter_id = "abc") ∧
    ∃ t, runLoop 2 (drainState [⟨"abc", "a"⟩, ⟨"abc", "b"⟩] []) = .running t ∧
      tallyFor t.rows "abc" = some (Submission.mk "abc" "b").vote :=
  ⟨by decide, by decide,
    worker_last_write_wins [⟨"abc", "a"⟩, ⟨"abc", "b"⟩] "abc" ⟨"abc", "b"⟩ []
      (by decide) (by decide)⟩

/-- C3 counterexample: at `stMalformed` (a malformed record at the head
of the queue) the loop iteration does not continue - the deserializer
throw escapes to the top-level handler and the process exits with code
1, refuting "a decode failure never terminates the loop or the
process". -/
theorem decode_failure_kills_loop_cex :
    workerStep stMalformed = .exited 1 ∧
    ∀ t, workerStep stMalformed ≠ .running t := by
  refine ⟨rfl, fun t h => ?_⟩
  rw [show workerStep stMalformed = .exited 1 from rfl] at h
  exact StepResult.noConfusion h

/-- C3 amended: a queue record that fails to decode is dropped (it was
already popped) but the deserializer exception propagates out of the
polling loop to the top-level handler, which logs it; the process
terminates with exit code 1 instead of continuing the loop. -/
theorem decode_failure_exits_one (s : WorkerState) (raw : String)
    (rest : List QueueEntry)
    (hq : s.queue = .malformed raw :: rest) :
    workerStep s = .exited 1 := by
  simp [workerStep, hq, decode]

/-- C3 witness: `decode_failure_exits_one` applied at `stMalformed`. -/
theorem decode_failure_exits_one_witness :
    stMalformed.queue = [.malformed "not json"] ∧
    workerStep stMalformed = .exited 1 :=
  ⟨rfl, decode_failure_exits_one stMalformed "not json" [] rfl⟩

/-- C4 counterexample: with IAM auth, sixty minutes elapse with zero
queue traffic - well beyond the ten-minute validity window - and still
only the single startup token has ever been minted; the state is a fixed
point of the loop, so no later empty-queue iteration mints either. The
refresh is conditional on popping a record, refuting the claim. -/
theorem no_refresh_on_idle_cex :
    tokenRefreshIntervalMin < idleIamState.nowMin - idleIamState.lastTokenRefresh ∧
    idleIamState.queue = [] ∧
    idleIamState.mintCount = 1 ∧
    runLoop 600 idleIamState = .running idleIamState := by
  refine ⟨by decide, rfl, rfl, ?_⟩
  exact runLoop_fixpoint 600 idleIamState rfl

/-- C4 amended: the credential-freshness check runs only on the
popped-record path - when IAM auth is on, the token is stale and a
well-formed record is popped, the worker closes the store connection,
mints a new token and reopens (mintCount goes up by one and the mint
time is reset); on an empty-queue iteration (the keep-alive path) the
worker never mints, whatever the elapsed time. -/
theorem token_refresh_only_on_pop (s : WorkerState) (v : Submission)
    (rest : List QueueEntry)
    (hiam : s.useIamAuth = true)
    (hq : s.queue = .wellFormed v :: rest)
    (hstale : tokenRefreshIntervalMin < s.nowMin - s.lastTokenRefresh) :
    (∃ t, workerStep s = .running t ∧ t.mintCount = s.mintCount + 1 ∧
       t.lastTokenRefresh = s.nowMin ∧ t.dbOpen = true) ∧
    ∀ u : WorkerState, u.queue = [] →
      workerStep u = .exited 1 ∨
        ∃ t, workerStep u = .running t ∧ t.mintCount = u.mintCount := by
  constructor
  · have hstep : workerStep s =
        .running { s with queue := rest, dbOpen := true, keepAliveOpen := true,
                          lastTokenRefresh := s.nowMin, mintCount := s.mintCount + 1,
                          rows := UpdateVote s.rows v.voter_id v.vote } := by
      simp [workerStep, hq, decode, hiam, hstale]
    exact ⟨_, hstep, rfl, rfl, rfl⟩
  · intro u hu
    cases hk : u.keepAliveOpen with
    | false => exact Or.inl (by simp [workerStep, hu, hk])
    | true => exact Or.inr ⟨u, by simp [workerStep, hu, hk], rfl⟩

/-- C4 witness: `token_refresh_only_on_pop` at `staleIamPopState`. -/
theorem token_refresh_only_on_pop_witness :
    staleIamPopState.useIamAuth = true ∧
    staleIamPopState.queue = [.wellFormed ⟨"abc", "a"⟩] ∧
    tokenRefreshIntervalMin < staleIamPopState.nowMin - staleIamPopState.lastTokenRefresh ∧
    ((∃ t, workerStep staleIamPopState = .running t ∧
        t.mintCount = staleIamPopState.mintCount + 1 ∧
        t.lastTokenRefresh = staleIamPopState.nowMin ∧ t.dbOpen = true) ∧
      ∀ u : WorkerState, u.queue = [] →
        workerStep u = .exited 1 ∨
          ∃ t, workerStep u = .running t ∧ t.mintCount = u.mintCount) :=
  ⟨rfl, rfl, by decide,
    token_refresh_only_on_pop staleIamPopState ⟨"abc", "a"⟩ [] rfl rfl (by decide)⟩

/-- C5 counterexample: at `stClosedConn` the store connection is not
open; the worker reopens it and the reopen SUCCEEDS (`dbOpen` is true
afterwards), yet the popped Submission is neither written (the table is
still empty) nor re-queued (the queue is empty) - refuting "the
Submission is lost only in the case that reopening fails - after a
successful reopen the Submission is written". -/
theorem reopen_drops_submission_cex :
    workerStep stClosedConn = .running stReopened ∧
    stReopened.dbOpen = true ∧ stReopened.rows = [] ∧ stReopened.queue = [] := by
  refine ⟨by decide, rfl, rfl, rfl⟩

/-- C5 amended: for every well-formed Submission popped from the queue -
if the store connection is open (or the IAM token refresh fires and
reopens it) the idempotent write is performed; if the connection is not
open and no refresh fires, the worker reopens it, the reopen
block-retries until it succeeds (it never fails), and the Submission is
dropped: not written and not re-queued even though the reopen
succeeded. -/
theorem popped_vote_written_or_dropped (s : WorkerState) (v : Submission)
    (rest : List QueueEntry)
    (hq : s.queue = .wellFormed v :: rest) :
    (s.dbOpen = true ∨
        (s.useIamAuth = true ∧ tokenRefreshIntervalMin < s.nowMin - s.lastTokenRefresh) →
      ∃ t, workerStep s = .running t ∧
        t.rows = UpdateVote s.rows v.voter_id v.vote ∧ t.queue = rest) ∧
    (s.dbOpen = false →
      ¬(s.useIamAuth = true ∧ tokenRefreshIntervalMin < s.nowMin - s.lastTokenRefresh) →
      ∃ t, workerStep s = .running t ∧ t.dbOpen = true ∧
        t.rows = s.rows ∧ t.queue = rest) := by
  constructor
  · intro hcase
    by_cases hrf : s.useIamAuth = true ∧ tokenRefreshIntervalMin < s.nowMin - s.lastTokenRefresh
    · have hstep : workerStep s =
          .running { s with queue := rest, dbOpen := true, keepAliveOpen := true,
                            lastTokenRefresh := s.nowMin, mintCount := s.mintCount + 1,
                            rows := UpdateVote s.rows v.voter_id v.vote } := by
        simp [workerStep, hq, decode, hrf.1, hrf.2]
      exact ⟨_, hstep, rfl, rfl⟩
    · have hdb : s.dbOpen = true := hcase.resolve_right hrf
      have hstep : workerStep s =
          .running { s with queue := rest,
                            rows := UpdateVote s.rows v.voter_id v.vote } := by
        simp [workerStep, hq, decode, hrf, hdb]
      exact ⟨_, hstep, rfl, rfl⟩
  · intro hdb hrf
    have hstep : workerStep s =
        .running { s with queue := rest, dbOpen := true } := by
      simp [workerStep, hq, decode, hrf, hdb]
    exact ⟨_, hstep, rfl, rfl, rfl⟩

/-- C5 witness: `popped_vote_written_or_dropped` at `stClosedConn`. -/
theorem popped_vote_written_or_dropped_witness :
    stClosedConn.queue = [.wellFormed ⟨"abc", "a"⟩] ∧
    ((stClosedConn.dbOpen = true ∨
        (stClosedConn.useIamAuth = true ∧
          tokenRefreshIntervalMin < stClosedConn.nowMin - stClosedConn.lastTokenRefresh) →
      ∃ t, workerStep stClosedConn = .running t ∧
        t.rows = UpdateVote stClosedConn.rows
          (Submission.mk "abc" "a").voter_id (Submission.mk "abc" "a").vote ∧
        t.queue = []) ∧
    (stClosedConn.dbOpen = false →
      ¬(stClosedConn.useIamAuth = true ∧
          tokenRefreshIntervalMin < stClosedConn.nowMin - stClosedConn.lastTokenRefresh) →
      ∃ t, workerStep stClosedConn = .running t ∧ t.dbOpen = true ∧
        t.rows = stClosedConn.rows ∧ t.queue = [])) :=
  ⟨rfl, popped_vote_written_or_dropped stClosedConn ⟨"abc", "a"⟩ [] rfl⟩

/-- C7 - The table operations of the core preserve the Tally invariant:
given at most one row per voter identity (`voterIds` nodup), `UpdateVote`
keeps it; a write for an already-present voter identity leaves the id
column exactly as it was (the row is mutated in place, no second row
appears, none disappears), a first write appends exactly the one new id;
the mutated row then holds the new choice; and the
`CREATE TABLE IF NOT EXISTS` of `OpenDbConnection` never touches rows,
so no operation deletes a row. -/
theorem tally_table_invariant (rows : Table) (v c : String)
    (h : (voterIds rows).Nodup) :
    (voterIds (UpdateVote rows v c)).Nodup ∧
    voterIds (UpdateVote rows v c) =
      (if hasVoter rows v then voterIds rows else voterIds rows ++ [v]) ∧
    tallyFor (UpdateVote rows v c) v = some c ∧
    ensureVotesTable (UpdateVote rows v c) = UpdateVote rows v c := by
  by_cases hv : hasVoter rows v = true
  · rw [UpdateVote_present rows v c hv]
    refine ⟨?_, ?_, tallyFor_updateVoteRow_self rows v c hv, rfl⟩
    · show ((updateVoteRow rows v c).map Row.id).Nodup
      rw [updateVoteRow_map_id]
      exact h
    · rw [if_pos hv]
      show (updateVoteRow rows v c).map Row.id = rows.map Row.id
      exact updateVoteRow_map_id rows v c
  · simp only [Bool.not_eq_true] at hv
    rw [UpdateVote_absent rows v c hv]
    have hids : voterIds (rows ++ [⟨v, c⟩]) = voterIds rows ++ [v] := by
      show (rows ++ [(⟨v, c⟩ : Row)]).map Row.id = rows.map Row.id ++ [v]
      simp
    refine ⟨?_, ?_, ?_, rfl⟩
    · rw [hids, List.nodup_append]
      refine ⟨h, List.nodup_singleton v, ?_⟩
      intro a ha hb
      have hav : a = v := by simpa using hb
      subst hav
      have : hasVoter rows a = true := (hasVoter_iff_mem_map_id rows a).mpr ha
      rw [this] at hv
      exact Bool.noConfusion hv
    · rw [hv]
      simpa using hids
    · rw [tallyFor_append_not_found rows _ v hv]
      simp [tallyFor]

/-- C7 witness: `tally_table_invariant` on a one-row table, overwriting
that voter's choice. -/
theorem tally_table_invariant_witness :
    (voterIds [⟨"1", "a"⟩]).Nodup ∧
    ((voterIds (UpdateVote [⟨"1", "a"⟩] "1" "b")).Nodup ∧
      voterIds (UpdateVote [⟨"1", "a"⟩] "1" "b") =
        (if hasVoter [⟨"1", "a"⟩] "1" then voterIds [⟨"1", "a"⟩]
         else voterIds [⟨"1", "a"⟩] ++ ["1"]) ∧
      tallyFor (UpdateVote [⟨"1", "a"⟩] "1" "b") "1" = some "b" ∧
      ensureVotesTable (UpdateVote [⟨"1", "a"⟩] "1" "b") =
        UpdateVote [⟨"1", "a"⟩] "1" "b") :=
  ⟨by decide, tally_table_invariant [⟨"1", "a"⟩] "1" "b" (by decide)⟩

/-- C10 - From the startup state there is a reachable worker state - the
queue empty while the store connection is not open (here: the connection
dropped silently between iterations) - in which the keep-alive
`ExecuteNonQuery` throws, the exception propagates out of the polling
loop to the top-level handler, and the worker terminates with exit code
1; the loop is not unconditionally non-terminating. -/
theorem keepalive_crash_reachable :
    ∃ s : WorkerState, Reachable initWorker s ∧ s.queue = [] ∧
      s.dbOpen = false ∧ s.keepAliveOpen = false ∧
      workerStep s = .exited 1 :=
  ⟨envApply initWorker .dropDb,
    Reachable.env initWorker initWorker .dropDb (Reachable.refl initWorker),
    rfl, rfl, rfl, by decide⟩

/-- C6 - code_bug evidence: the intake route performs no validation of
the choice value. At the failing input - a POST carrying the malformed
choice "z" (not an enumerated option), error simulation off, a session
cookie "voter1" - `hello` pushes the serialized Submission onto the
Durable Queue instead of rejecting the request before enqueue. -/
theorem hello_enqueues_any_choice :
    helloPost false (some "voter1") "minted" "z" [] =
      .ok ([.wellFormed ⟨"voter1", "z"⟩], "voter1") :=
  rfl

/-- C8 - The Aggregate Snapshot equals the grouping of Tally Rows by
choice: for the rows id "1" and id "2" voting "a" and id "3" voting "b",
the snapshot built by `collectVotesFromResult` over the `GROUP BY vote`
result maps "a" to 2 and "b" to 1. -/
theorem aggregate_snapshot_example :
    collectVotesFromResult (groupByVote [⟨"1", "a"⟩, ⟨"2", "a"⟩, ⟨"3", "b"⟩]) =
      [("a", 2), ("b", 1)] := by
  decide

/-- C9 - The `getVotes` loop runs every scheduled cycle to completion
whatever the query outcomes (a query failure never terminates it); a
failed cycle logs the error, broadcasts nothing (no stale or error
payload), and still schedules the next cycle at the fixed interval; the
broadcasts of a run are exactly the snapshots of the successful
cycles. -/
theorem agg_failure_skips_cycle (qs : List QueryOutcome) :
    (aggRun qs).2 = qs.length ∧
    (aggRun qs).1 = qs.filterMap (fun q =>
      match q with
      | .ok rows => some (collectVotesFromResult (groupByVote rows))
      | .failed _ => none) ∧
    ∀ e, aggCycle (.failed e) =
      { broadcast := none, logged := some ("Error performing query: " ++ e),
        schedulesNext := true } := by
  refine ⟨?_, ?_, fun e => rfl⟩
  · induction qs with
    | nil => rfl
    | cons q qs ih => simp [aggRun, ih]
  · induction qs with
    | nil => rfl
    | cons q qs ih =>
      cases q with
      | ok rows => simp [aggRun, aggCycle, ih]
      | failed e => simp [aggRun, aggCycle, ih]

end VotingCore
